import Mathlib

set_option maxHeartbeats 1000000

namespace Chesspresso

/-- A chess color, as shakmaty Color. -/
inductive Color
  | white
  | black
deriving DecidableEq

/-- Negation of a color, as the Not impl on shakmaty Color. -/
def Color.other : Color → Color
  | .white => .black
  | .black => .white

/-- Check and checkmate suffixes, as shakmaty san Suffix. -/
inductive Suffix
  | check
  | checkmate
deriving DecidableEq

/-- The single character a suffix renders to. -/
def suffixStr : Suffix → String
  | .check => "+"
  | .checkmate => "#"

/-- SAN together with an optional suffix, as shakmaty SanPlus. -/
structure SanPlus (San : Type) where
  san : San
  suffix : Option Suffix
deriving DecidableEq

/-- UTF-8 encoding of one character. -/
def utf8Char (c : Char) : List Nat :=
  let n := c.toNat
  if n < 128 then [n]
  else if n < 2048 then [192 + n / 64, 128 + n % 64]
  else if n < 65536 then [224 + n / 4096, 128 + n / 64 % 64, 128 + n % 64]
  else [240 + n / 262144, 128 + n / 4096 % 64, 128 + n / 64 % 64, 128 + n % 64]

/-- UTF-8 bytes of a string, as Rust str as_bytes. -/
def utf8Bytes (s : String) : List Nat :=
  s.data.flatMap utf8Char

/-- Little-endian bytes of an i32, as Rust to_le_bytes. -/
def leBytes4 (n : Int) : List Nat :=
  let m := (n % (2 ^ 32 : Int)).toNat
  [m % 256, m / 256 % 256, m / 65536 % 256, m / 16777216 % 256]

/-- Failure cases of the engine and of advance handling; the Rust code uses
anyhow errors with one distinct message per case. -/
inductive PlayError
  | invalidPlayer
  | notYourTurn
  | stateMismatch
  | illegalSan
  | illegalMove
  | parseFailed
deriving DecidableEq

/-- Outcome reported by the rules library, as shakmaty Outcome. -/
inductive RulesOutcome
  | decisive (winner : Color)
  | draw
deriving DecidableEq

/-- The surface of the chess rules library (shakmaty) used by the engine.
Positions, SAN values and moves are abstract: the engine code is verified for
any implementation of this surface. -/
structure Rules (Pos San Mv : Type) where
  startPos : Pos
  turn : Pos → Color
  toMove : San → Pos → Option Mv
  playMove : Pos → Mv → Option Pos
  isCheckmate : Pos → Bool
  isCheck : Pos → Bool
  isStalemate : Pos → Bool
  isInsufficientMaterial : Pos → Bool
  outcome : Pos → Option RulesOutcome
  sanStr : San → String
  parseSan : String → Option San

/-- Rendering of a SanPlus, as its Display impl: the SAN then the suffix
character, if any. -/
def sanPlusStr {Pos San Mv : Type} (R : Rules Pos San Mv) (sp : SanPlus San) : String :=
  R.sanStr sp.san ++ (match sp.suffix with
    | none => ""
    | some s => suffixStr s)

/-- Game outcome, from game.rs. Addresses are raw byte lists. -/
inductive Outcome
  | checkmate (winner loser : List Nat)
  | resignation (winner loser : List Nat)
  | stalemate
  | insufficientMaterial
  | draw
deriving DecidableEq

/-- winner_loser from game.rs: the players, when the outcome is decisive. -/
def Outcome.winnerLoser : Outcome → Option (List Nat × List Nat)
  | .checkmate w l => some (w, l)
  | .resignation w l => some (w, l)
  | _ => none

/-- In-memory game state, from game.rs. -/
structure Game (Pos : Type) where
  white : List Nat
  black : List Nat
  position : Pos
  half_move : Nat
  id : Int
  hash : List Nat
deriving DecidableEq

/-- Move record returned by play, from game.rs. -/
structure Move (San : Type) where
  san : SanPlus San
  half_move : Nat
deriving DecidableEq

/-- Whether an Except value is a success. -/
def exceptOk {α β : Type} : Except α β → Bool
  | .ok _ => true
  | .error _ => false

instance {α β : Type} [DecidableEq α] [DecidableEq β] : DecidableEq (Except α β) := by
  intro a b
  cases a <;> cases b
  case error.error e1 e2 =>
    exact match decEq e1 e2 with
    | isTrue h => isTrue (by rw [h])
    | isFalse h => isFalse (by intro hc; cases hc; exact h rfl)
  case error.ok e1 v2 => exact isFalse (by intro hc; cases hc)
  case ok.error v1 e2 => exact isFalse (by intro hc; cases hc)
  case ok.ok v1 v2 =>
    exact match decEq v1 v2 with
    | isTrue h => isTrue (by rw [h])
    | isFalse h => isFalse (by intro hc; cases hc; exact h rfl)

section Engine

variable {Pos San Mv : Type}

/-- Game::new from game.rs: the starting position at half move zero, hash of
the little-endian id bytes then the raw bytes of white then black. -/
def Game.new (R : Rules Pos San Mv) (keccak : List Nat → List Nat)
    (id : Int) (white black : List Nat) : Game Pos :=
  { white := white, black := black, position := R.startPos, half_move := 0,
    id := id, hash := keccak (leBytes4 id ++ white ++ black) }

/-- player_color from game.rs. -/
def Game.playerColor (g : Game Pos) (player : List Nat) : Option Color :=
  if g.white = player then some .white
  else if g.black = player then some .black
  else none

/-- player from game.rs. -/
def Game.player (g : Game Pos) : Color → List Nat
  | .white => g.white
  | .black => g.black

/-- outcome from game.rs. -/
def Game.outcome (R : Rules Pos San Mv) (g : Game Pos) : Option Outcome :=
  match R.outcome g.position with
  | none => none
  | some (.decisive winner) =>
      some (.checkmate (g.player winner) (g.player winner.other))
  | some .draw =>
      if R.isStalemate g.position then some .stalemate
      else if R.isInsufficientMaterial g.position then some .insufficientMaterial
      else some .draw

/-- play_next_move from game.rs. The Rust method mutates self; this model
returns the new state next to the result. On a rules-library play error the
source has already taken the position with std mem take, leaving the default
starting position in the game, which this model reproduces. -/
def Game.playNextMove (R : Rules Pos San Mv) (keccak : List Nat → List Nat)
    (g : Game Pos) (san : San) : Except PlayError (Move San) × Game Pos :=
  match R.toMove san g.position with
  | none => (.error .illegalSan, g)
  | some m =>
    match R.playMove g.position m with
    | none => (.error .illegalMove, { g with position := R.startPos })
    | some p2 =>
      let hm := (g.half_move + 1) % 65536
      let suffix : Option Suffix :=
        if R.isCheckmate p2 then some .checkmate
        else if R.isCheck p2 then some .check
        else none
      let nt : SanPlus San := { san := san, suffix := suffix }
      let h2 := keccak (g.hash ++ utf8Bytes (sanPlusStr R nt))
      (.ok { san := nt, half_move := hm },
        { g with position := p2, half_move := hm, hash := h2 })

/-- play from game.rs: the invalid-player check, then the turn check, then the
state hash check, then play_next_move. -/
def Game.play (R : Rules Pos San Mv) (keccak : List Nat → List Nat)
    (g : Game Pos) (player expected : List Nat) (san : San) :
    Except PlayError (Move San) × Game Pos :=
  match g.playerColor player with
  | none => (.error .invalidPlayer, g)
  | some color =>
    if R.turn g.position = color then
      if expected = g.hash then g.playNextMove R keccak san
      else (.error .stateMismatch, g)
    else (.error .notYourTurn, g)

/-- The loop of from_moves from game.rs. -/
def replayAux (R : Rules Pos San Mv) (keccak : List Nat → List Nat) :
    Game Pos → List San → Except PlayError (Game Pos)
  | g, [] => .ok g
  | g, s :: rest =>
    match g.playNextMove R keccak s with
    | (.ok _, g2) => replayAux R keccak g2 rest
    | (.error e, _) => .error e

/-- from_moves from game.rs. -/
def Game.fromMoves (R : Rules Pos San Mv) (keccak : List Nat → List Nat)
    (id : Int) (white black : List Nat) (moves : List San) :
    Except PlayError (Game Pos) :=
  replayAux R keccak (Game.new R keccak id white black) moves

/-- The spec wording for from_moves: new followed by repeated play_next_move,
failing on the first illegal move. -/
def specNewThenPlay (R : Rules Pos San Mv) (keccak : List Nat → List Nat)
    (id : Int) (white black : List Nat) (moves : List San) :
    Except PlayError (Game Pos) :=
  moves.foldlM (fun g s =>
    match g.playNextMove R keccak s with
    | (.ok _, g2) => Except.ok g2
    | (.error e, _) => Except.error e) (Game.new R keccak id white black)

/-- The spec formula for the initial commitment h0. -/
def specInitialHash (keccak : List Nat → List Nat) (id : Int) (white black : List Nat) :
    List Nat :=
  keccak (leBytes4 id ++ white ++ black)

/-- The spec formula for one hash chain step. -/
def specHashStep (keccak : List Nat → List Nat) (h : List Nat) (m : String) : List Nat :=
  keccak (h ++ utf8Bytes m)

/-- Replay through play_next_move, collecting the canonical SAN text of each
successful move. -/
def replayNotations (R : Rules Pos San Mv) (keccak : List Nat → List Nat) :
    Game Pos → List San → Option (Game Pos × List String)
  | g, [] => some (g, [])
  | g, s :: rest =>
    match g.playNextMove R keccak s with
    | (.ok mv, g2) =>
      match replayNotations R keccak g2 rest with
      | some (gf, ms) => some (gf, sanPlusStr R mv.san :: ms)
      | none => none
    | (.error _, _) => none

end Engine

/-- A user row: address, glicko2 rating (abstract) and the six counters. -/
structure UserRow (Rating : Type) where
  address : List Nat
  rating : Rating
  white_wins : Nat
  white_losses : Nat
  white_draws : Nat
  black_wins : Nat
  black_losses : Nat
  black_draws : Nat
deriving DecidableEq

/-- A game result against an opponent rating, as glicko2 GameResult. -/
inductive GResult (Rating : Type)
  | win (opponent : Rating)
  | loss (opponent : Rating)
  | draw (opponent : Rating)
deriving DecidableEq

/-- The relational store: user, game and move tables plus the autoincrement
id counter. -/
structure DbState (Rating : Type) where
  users : List (UserRow Rating)
  games : List (Int × List Nat × List Nat)
  moves : List (Int × Nat × String)
  nextId : Int
deriving DecidableEq

section Store

variable {Pos San Mv Rating : Type}

/-- A fresh unrated user row with zero counters. -/
def unratedRow (unrated : Rating) (addr : List Nat) : UserRow Rating :=
  { address := addr, rating := unrated, white_wins := 0, white_losses := 0,
    white_draws := 0, black_wins := 0, black_losses := 0, black_draws := 0 }

/-- INSERT OR IGNORE INTO user, from Db::new_game in db.rs. -/
def ensureUser (unrated : Rating) (db : DbState Rating) (addr : List Nat) :
    DbState Rating :=
  if db.users.any (fun u => u.address == addr) then db
  else { db with users := db.users ++ [unratedRow unrated addr] }

/-- Db::new_game from db.rs: ensure both user rows, insert a game row with the
next auto-assigned id, return the in-memory starting game. -/
def dbNewGame (R : Rules Pos San Mv) (keccak : List Nat → List Nat) (unrated : Rating)
    (db : DbState Rating) (white black : List Nat) : Game Pos × DbState Rating :=
  let db1 := ensureUser unrated (ensureUser unrated db white) black
  let id := db1.nextId
  let db2 := { db1 with games := db1.games ++ [(id, white, black)], nextId := id + 1 }
  (Game.new R keccak id white black, db2)

/-- Db::record_move from db.rs. -/
def dbRecordMove (R : Rules Pos San Mv) (db : DbState Rating) (id : Int) (mv : Move San) :
    DbState Rating :=
  { db with moves := db.moves ++ [(id, mv.half_move, sanPlusStr R mv.san)] }

/-- get_elo from db.rs. -/
def getElo (db : DbState Rating) (addr : List Nat) : Option Rating :=
  (db.users.find? (fun u => u.address == addr)).map (fun u => u.rating)

/-- set_elo from db.rs. -/
def setElo (db : DbState Rating) (addr : List Nat) (r : Rating) : DbState Rating :=
  { db with users := db.users.map (fun u =>
      if u.address = addr then { u with rating := r } else u) }

/-- Which of the six counters an UPDATE statement bumps. -/
inductive Counter
  | ww
  | wl
  | wd
  | bw
  | bl
  | bd

/-- Increment one counter of a row. -/
def bumpRow (c : Counter) (u : UserRow Rating) : UserRow Rating :=
  match c with
  | .ww => { u with white_wins := u.white_wins + 1 }
  | .wl => { u with white_losses := u.white_losses + 1 }
  | .wd => { u with white_draws := u.white_draws + 1 }
  | .bw => { u with black_wins := u.black_wins + 1 }
  | .bl => { u with black_losses := u.black_losses + 1 }
  | .bd => { u with black_draws := u.black_draws + 1 }

/-- One UPDATE user SET counter = counter + 1 WHERE address statement from
db.rs. -/
def bump (db : DbState Rating) (addr : List Nat) (c : Counter) : DbState Rating :=
  { db with users := db.users.map (fun u =>
      if u.address = addr then bumpRow c u else u) }

/-- Db::end_game from db.rs: rating updates and counter bumps per outcome,
then delete the game row, all inside one transaction. A none result is a
failed rating lookup, in which case the transaction rolls back. -/
def dbEndGame (upd : Rating → GResult Rating → Rating)
    (db : DbState Rating) (g : Game Pos) (oc : Option Outcome) :
    Option (DbState Rating) :=
  let finish := fun (db2 : DbState Rating) =>
    some { db2 with games := db2.games.filter (fun row => row.1 != g.id) }
  match oc with
  | none => finish db
  | some oc =>
    match oc.winnerLoser with
    | some (winner, loser) =>
      match getElo db winner, getElo db loser with
      | some we, some le =>
        let db1 := setElo db winner (upd we (.win le))
        let db2 := setElo db1 loser (upd le (.loss we))
        let db3 :=
          if winner = g.white then bump (bump db2 winner .ww) loser .bl
          else bump (bump db2 winner .bw) loser .wl
        finish db3
      | _, _ => none
    | none =>
      match getElo db g.white, getElo db g.black with
      | some we, some be =>
        let db1 := setElo db g.white (upd we (.draw be))
        let db2 := setElo db1 g.black (upd be (.draw we))
        let db3 := bump (bump db2 g.white .wd) g.black .bd
        finish db3
      | _, _ => none

/-- Insertion into a list sorted by half_move. -/
def insertByHalfMove (row : Int × Nat × String) :
    List (Int × Nat × String) → List (Int × Nat × String)
  | [] => [row]
  | r :: rest =>
    if row.2.1 ≤ r.2.1 then row :: r :: rest else r :: insertByHalfMove row rest

/-- ORDER BY half_move. -/
def sortByHalfMove : List (Int × Nat × String) → List (Int × Nat × String)
  | [] => []
  | r :: rest => insertByHalfMove r (sortByHalfMove rest)

/-- The while loop of Db::game_notation from db.rs. -/
def notationLoop : Nat → List String → String → String
  | _, [], acc => acc
  | i, w :: rest, acc =>
    let acc2 := acc ++ toString i ++ "." ++ w ++ " "
    match rest with
    | [] => acc2
    | b :: rest2 => notationLoop (i + 1) rest2 (acc2 ++ b ++ " ")

/-- Db::game_notation from db.rs: the moves of the game in ascending half_move
order, formatted by the numbering loop. -/
def gameMovesText (db : DbState Rating) (id : Int) : String :=
  notationLoop 1
    ((sortByHalfMove (db.moves.filter (fun row => row.1 == id))).map
      (fun row => row.2.2)) ""

/-- The spec wording for the formatting: each white half move paired with its
full-move number, a trailing space after every half move, an odd ply count
ends mid-pair. -/
def specFormat : Nat → List String → String
  | _, [] => ""
  | i, [w] => toString i ++ "." ++ w ++ " "
  | i, w :: b :: rest =>
    toString i ++ "." ++ w ++ " " ++ b ++ " " ++ specFormat (i + 1) rest

/-- The play line of the Advance::Move branch of handle_advance in dapp
main.rs: parse the SAN string, then call play. -/
def playSanStr (R : Rules Pos San Mv) (keccak : List Nat → List Nat)
    (g : Game Pos) (player expected : List Nat) (s : String) :
    Except PlayError (Move San) × Game Pos :=
  match R.parseSan s with
  | none => (.error .parseFailed, g)
  | some san => g.play R keccak player expected san

/-- The Advance::Challenge branch of handle_advance in dapp main.rs. The
returned state is the store as later inputs observe it; an error result means
the input is rejected. -/
def handleChallenge (R : Rules Pos San Mv) (keccak : List Nat → List Nat)
    (unrated : Rating) (db : DbState Rating) (sender opponent : List Nat)
    (firstMove : Option String) : Except PlayError Unit × DbState Rating :=
  let wb := if firstMove.isSome then (sender, opponent) else (opponent, sender)
  let gdb := dbNewGame R keccak unrated db wb.1 wb.2
  match firstMove with
  | none => (.ok (), gdb.2)
  | some s =>
    match R.parseSan s with
    | none => (.error .parseFailed, gdb.2)
    | some san =>
      match (gdb.1).play R keccak sender (gdb.1).hash san with
      | (.error e, _) => (.error e, gdb.2)
      | (.ok mv, _) => (.ok (), dbRecordMove R gdb.2 (gdb.1).id mv)

end Store

/-- True when the last character of a string is not a check or mate suffix. -/
def noTrailingSuffix (s : String) : Prop :=
  s.data.getLast? ≠ some '+' ∧ s.data.getLast? ≠ some '#'

instance (s : String) : Decidable (noTrailingSuffix s) := by
  unfold noTrailingSuffix; infer_instance

/-- Drop one trailing suffix character, as shakmaty San parsing does before
reading the bare SAN. -/
def stripOneSuffix (s : String) : String :=
  if s.data.getLast? = some '+' ∨ s.data.getLast? = some '#' then
    { data := s.data.dropLast }
  else s

/-- A toy hash for concrete witnesses: byte sum and length. -/
def toyKeccak (l : List Nat) : List Nat :=
  [l.foldl (fun a b => a + b) 0 % 256, l.length % 256]

/-- Toy SAN conversion: each position has at most one named legal move. -/
def toyToMoveFn (s : String) (p : Nat) : Option Nat :=
  if p = 0 ∧ s = "m1" then some 10
  else if p = 2 ∧ s = "m3" then some 30
  else none

/-- Toy move application. -/
def toyPlayMoveFn (p m : Nat) : Option Nat :=
  if p = 0 ∧ m = 10 then some 2
  else if p = 2 ∧ m = 30 then some 4
  else none

/-- Toy outcome: positions 2 and 4 are drawn, 5 is decisive. -/
def toyOutcomeFn (p : Nat) : Option RulesOutcome :=
  if p = 2 then some .draw
  else if p = 4 then some .draw
  else if p = 5 then some (.decisive .white)
  else none

/-- Toy SAN parsing: strip one suffix character, accept anything. -/
def toyParseFn (s : String) : Option String :=
  some (stripOneSuffix s)

/-- A tiny conforming rules adapter used for concrete witnesses. Position 0
is the start, position 2 is a drawn-by-insufficient-material position that
still has a legal move (as K plus N versus K in chess), position 5 is a
checkmate. -/
def toyRules : Rules Nat String Nat where
  startPos := 0
  turn := fun p => if p = 2 then .black else .white
  toMove := toyToMoveFn
  playMove := toyPlayMoveFn
  isCheckmate := fun p => p == 5
  isCheck := fun _ => false
  isStalemate := fun _ => false
  isInsufficientMaterial := fun p => p == 2 || p == 4
  outcome := toyOutcomeFn
  sanStr := fun s => s
  parseSan := toyParseFn

/-- A concrete starting game for witnesses. -/
def toyG0 : Game Nat := Game.new toyRules toyKeccak 1 [1] [2]

/-- The move record produced by playing m1 from the start. -/
def toyMv1 : Move String := { san := { san := "m1", suffix := none }, half_move := 1 }

/-- The game state after playing m1 from the start. -/
def toyG1 : Game Nat :=
  { white := [1], black := [2], position := 2, half_move := 1, id := 1, hash := [168, 4] }

/-- A game sitting on the toy checkmate position. -/
def toyGMate : Game Nat :=
  { white := [1], black := [2], position := 5, half_move := 3, id := 1, hash := [9] }

/-- A rating update marker function for db witnesses. -/
def toyUpd (r : Nat) (res : GResult Nat) : Nat :=
  match res with
  | .win o => r * 1000 + o
  | .loss o => r * 100 + o
  | .draw o => r * 10 + o

/-- A store with two users and one live game, for db witnesses. -/
def toyStatsDb : DbState Nat :=
  { users :=
      [{ address := [1], rating := 7, white_wins := 1, white_losses := 2,
         white_draws := 3, black_wins := 4, black_losses := 5, black_draws := 6 },
       { address := [2], rating := 8, white_wins := 11, white_losses := 12,
         white_draws := 13, black_wins := 14, black_losses := 15, black_draws := 16 }],
    games := [(3, [1], [2])], moves := [], nextId := 4 }

/-- The in-memory game matching the live game of toyStatsDb. -/
def toyStatsGame : Game Nat :=
  { white := [1], black := [2], position := 0, half_move := 4, id := 3, hash := [] }

/-- A store holding the scholars mate moves of game 5 (inserted out of order)
and one move of another game. -/
def scholarsDb : DbState Nat :=
  { users := [], games := [(5, [1], [2])],
    moves := [(5, 2, "e5"), (5, 1, "e4"), (5, 7, "Qxf7#"), (5, 4, "Nc6"),
              (9, 1, "d4"), (5, 3, "Qh5"), (5, 6, "Nf6"), (5, 5, "Bc4")],
    nextId := 10 }

/-- Success inversion for play_next_move: the converted move exists, playing it
succeeds, and the returned move record and game state have the literal shapes
built by the source. -/
theorem playNextMove_ok_cases {Pos San Mv : Type} (R : Rules Pos San Mv)
    (keccak : List Nat → List Nat) (g : Game Pos) (s : San) (mv : Move San) (g2 : Game Pos)
    (h : g.playNextMove R keccak s = (.ok mv, g2)) :
    ∃ m p2, R.toMove s g.position = some m ∧ R.playMove g.position m = some p2 ∧
      mv = { san := { san := s, suffix :=
              if R.isCheckmate p2 then some .checkmate
              else if R.isCheck p2 then some .check else none },
             half_move := (g.half_move + 1) % 65536 } ∧
      g2 = { g with position := p2, half_move := (g.half_move + 1) % 65536,
                    hash := keccak (g.hash ++ utf8Bytes (sanPlusStr R
                      { san := s, suffix :=
                          if R.isCheckmate p2 then some .checkmate
                          else if R.isCheck p2 then some .check else none })) } := by
  rcases h1 : R.toMove s g.position with _ | m
  · simp [Game.playNextMove, h1] at h
  · rcases h2 : R.playMove g.position m with _ | p2
    · simp [Game.playNextMove, h1, h2] at h
    · simp [Game.playNextMove, h1, h2] at h
      obtain ⟨hmv, hg⟩ := h
      exact ⟨m, p2, rfl, h2, hmv.symm, hg.symm⟩

/-- The hash after one successful play_next_move is the chain step applied to
the previous hash and the canonical SAN text. -/
theorem playNextMove_ok_hash {Pos San Mv : Type} (R : Rules Pos San Mv)
    (keccak : List Nat → List Nat) (g : Game Pos) (s : San) (mv : Move San) (g2 : Game Pos)
    (h : g.playNextMove R keccak s = (.ok mv, g2)) :
    g2.hash = specHashStep keccak g.hash (sanPlusStr R mv.san) := by
  obtain ⟨m, p2, _, _, hmv, hg⟩ := playNextMove_ok_cases R keccak g s mv g2 h
  subst hmv; subst hg; rfl

/-- Replaying a sequence folds the chain step over the starting hash. -/
theorem replayNotations_hash {Pos San Mv : Type} (R : Rules Pos San Mv)
    (keccak : List Nat → List Nat) (seq : List San) :
    ∀ (g gf : Game Pos) (ms : List String),
      replayNotations R keccak g seq = some (gf, ms) →
      gf.hash = ms.foldl (specHashStep keccak) g.hash := by
  induction seq with
  | nil =>
    intro g gf ms h
    simp [replayNotations] at h
    obtain ⟨h1, h2⟩ := h
    subst h1; subst h2; rfl
  | cons s rest ih =>
    intro g gf ms h
    rcases h1 : g.playNextMove R keccak s with ⟨res, g2⟩
    rcases res with e | mv
    · simp [replayNotations, h1] at h
    · rcases h2 : replayNotations R keccak g2 rest with _ | ⟨gf2, ms2⟩
      · simp [replayNotations, h1, h2] at h
      · simp [replayNotations, h1, h2] at h
        obtain ⟨hgf, hms⟩ := h
        subst hgf; subst hms
        simp only [List.foldl]
        rw [← playNextMove_ok_hash R keccak g s mv g2 h1]
        exact ih g2 gf2 ms2 h2

/-- Claim C1: the game hash is the chained keccak commitment. Game::new hashes
the little-endian id bytes then the raw white and black address bytes; each
successful play_next_move maps the hash h to keccak of h followed by the utf8
of the canonical SAN-with-suffix text; replaying a sequence of moves from new
folds the step over h0. -/
theorem hash_chain_commitment {Pos San Mv : Type} (R : Rules Pos San Mv)
    (keccak : List Nat → List Nat) :
    (∀ (id : Int) (white black : List Nat),
      (Game.new R keccak id white black).hash = specInitialHash keccak id white black)
    ∧ (∀ (g : Game Pos) (s : San) (mv : Move San) (g2 : Game Pos),
        g.playNextMove R keccak s = (.ok mv, g2) →
        g2.hash = specHashStep keccak g.hash (sanPlusStr R mv.san))
    ∧ (∀ (id : Int) (white black : List Nat) (seq : List San) (gf : Game Pos)
        (ms : List String),
        replayNotations R keccak (Game.new R keccak id white black) seq = some (gf, ms) →
        gf.hash = ms.foldl (specHashStep keccak) (specInitialHash keccak id white black)) := by
  refine ⟨fun id white black => rfl, playNextMove_ok_hash R keccak, ?_⟩
  intro id white black seq gf ms h
  exact replayNotations_hash R keccak seq (Game.new R keccak id white black) gf ms h

/-- Witness for C1 at the concrete toy instance. -/
theorem hash_chain_commitment_witness :
    (Game.new toyRules toyKeccak 1 [1] [2]).hash = specInitialHash toyKeccak 1 [1] [2]
    ∧ toyG1.hash = specHashStep toyKeccak toyG0.hash (sanPlusStr toyRules toyMv1.san) :=
  ⟨(hash_chain_commitment toyRules toyKeccak).1 1 [1] [2],
   (hash_chain_commitment toyRules toyKeccak).2.1 toyG0 "m1" toyMv1 toyG1 (by decide)⟩

/-- The from_moves loop equals a monadic fold of play_next_move. -/
theorem replayAux_eq_foldlM {Pos San Mv : Type} (R : Rules Pos San Mv)
    (keccak : List Nat → List Nat) (l : List San) :
    ∀ g : Game Pos, replayAux R keccak g l =
      l.foldlM (fun g s =>
        match g.playNextMove R keccak s with
        | (.ok _, g2) => Except.ok g2
        | (.error e, _) => Except.error e) g := by
  induction l with
  | nil => intro g; rfl
  | cons s rest ih =>
    intro g
    rcases h1 : g.playNextMove R keccak s with ⟨res, g2⟩
    rcases res with e | mv
    · simp only [replayAux, List.foldlM, h1]
      rfl
    · simp only [replayAux, List.foldlM, h1, ih g2]
      rfl

/-- Claim C6: from_moves is exactly new followed by repeated play_next_move,
failing on the first illegal move; hence it produces the same final state and
the same hash. -/
theorem from_moves_equiv_new_then_play {Pos San Mv : Type} (R : Rules Pos San Mv)
    (keccak : List Nat → List Nat) (id : Int) (white black : List Nat)
    (moves : List San) :
    Game.fromMoves R keccak id white black moves
      = specNewThenPlay R keccak id white black moves :=
  replayAux_eq_foldlM R keccak moves (Game.new R keccak id white black)

/-- Claim C2: play enforces its three preconditions in order, invalid player
first, then wrong turn, then state mismatch, and a success implies the
expected hash matched the game hash and the player controlled the side to
move. -/
theorem play_precondition_order {Pos San Mv : Type} (R : Rules Pos San Mv)
    (keccak : List Nat → List Nat) (g : Game Pos) (player expected : List Nat)
    (san : San) :
    (g.white ≠ player → g.black ≠ player →
      g.play R keccak player expected san = (.error .invalidPlayer, g))
    ∧ (∀ c, g.playerColor player = some c → R.turn g.position ≠ c →
      g.play R keccak player expected san = (.error .notYourTurn, g))
    ∧ (∀ c, g.playerColor player = some c → R.turn g.position = c →
      expected ≠ g.hash →
      g.play R keccak player expected san = (.error .stateMismatch, g))
    ∧ (∀ (mv : Move San) (g2 : Game Pos),
      g.play R keccak player expected san = (.ok mv, g2) →
      expected = g.hash ∧ player = g.player (R.turn g.position)) := by
  refine ⟨?_, ?_, ?_, ?_⟩
  · intro hw hb
    have hpc : g.playerColor player = none := by
      unfold Game.playerColor
      rw [if_neg hw, if_neg hb]
    simp [Game.play, hpc]
  · intro c hpc ht
    simp [Game.play, hpc, if_neg ht]
  · intro c hpc ht he
    simp [Game.play, hpc, if_pos ht, if_neg he]
  · intro mv g2 h
    rcases hpc : g.playerColor player with _ | c
    · simp [Game.play, hpc] at h
    · simp only [Game.play, hpc] at h
      by_cases ht : R.turn g.position = c
      · rw [if_pos ht] at h
        by_cases he : expected = g.hash
        · refine ⟨he, ?_⟩
          rw [ht]
          unfold Game.playerColor at hpc
          by_cases hw : g.white = player
          · rw [if_pos hw] at hpc
            injection hpc with hc
            subst hc
            exact hw.symm
          · rw [if_neg hw] at hpc
            by_cases hb : g.black = player
            · rw [if_pos hb] at hpc
              injection hpc with hc
              subst hc
              exact hb.symm
            · rw [if_neg hb] at hpc
              cases hpc
        · rw [if_neg he] at h
          cases h
      · rw [if_neg ht] at h
        cases h

/-- Witness for C2: an address that is neither player is refused as an
invalid player at a concrete toy game. -/
theorem play_precondition_order_witness :
    toyG0.play toyRules toyKeccak [9] toyG0.hash "m1" = (.error .invalidPlayer, toyG0) :=
  (play_precondition_order toyRules toyKeccak toyG0 [9] toyG0.hash "m1").1
    (by decide) (by decide)

/-- Data of an appended string. -/
theorem strDataAppend (a b : String) : (a ++ b).data = a.data ++ b.data := by
  cases a; cases b; rfl

/-- A string rebuilt from its character list. -/
theorem strMkData (s : String) : String.mk s.data = s := by
  cases s; rfl

/-- Stripping is the identity on suffix-free strings. -/
theorem stripOne_id (b : String) (hb : noTrailingSuffix b) : stripOneSuffix b = b := by
  unfold stripOneSuffix
  rw [if_neg]
  rintro (h | h)
  · exact hb.1 h
  · exact hb.2 h

/-- Stripping removes exactly one appended suffix character. -/
theorem stripOne_append (b : String) (c : Suffix) :
    stripOneSuffix (b ++ suffixStr c) = b := by
  have hd : ∃ ch : Char, (ch = '+' ∨ ch = '#') ∧ (b ++ suffixStr c).data = b.data ++ [ch] := by
    cases c
    · exact ⟨'+', Or.inl rfl, by rw [strDataAppend]; rfl⟩
    · exact ⟨'#', Or.inr rfl, by rw [strDataAppend]; rfl⟩
  obtain ⟨ch, hch, hdata⟩ := hd
  unfold stripOneSuffix
  rw [hdata, List.getLast?_concat, List.dropLast_concat]
  rcases hch with h | h
  · subst h
    rw [if_pos (Or.inl rfl)]
  · subst h
    rw [if_pos (Or.inr rfl)]

/-- The toy parser ignores one appended suffix character, as shakmaty San
parsing does. -/
theorem toyParseLaw : ∀ (b : String) (c : Suffix), noTrailingSuffix b →
    toyRules.parseSan (b ++ suffixStr c) = toyRules.parseSan b := by
  intro b c hb
  show toyParseFn (b ++ suffixStr c) = toyParseFn b
  unfold toyParseFn
  rw [stripOne_append b c, stripOne_id b hb]

/-- The toy adapter only converts to playable moves. -/
theorem toyLegal : ∀ (s : String) (p m : Nat),
    toyRules.toMove s p = some m → (toyRules.playMove p m).isSome = true := by
  intro s p m h
  have h2 : toyToMoveFn s p = some m := h
  show (toyPlayMoveFn p m).isSome = true
  unfold toyToMoveFn at h2
  split at h2
  · rename_i hc
    injection h2 with hm
    subst hm
    obtain ⟨hp, -⟩ := hc
    subst hp
    simp [toyPlayMoveFn]
  · split at h2
    · rename_i hc hc2
      injection h2 with hm
      subst hm
      obtain ⟨hp, -⟩ := hc2
      subst hp
      simp [toyPlayMoveFn]
    · cases h2

/-- A decisive toy outcome admits no convertible move, as a checkmated
position has no legal moves. -/
theorem toyMateLaw : ∀ (p : Nat) (w : Color),
    toyRules.outcome p = some (.decisive w) → ∀ s : String,
    toyRules.toMove s p = none := by
  intro p w h s
  have h2 : toyOutcomeFn p = some (RulesOutcome.decisive w) := h
  show toyToMoveFn s p = none
  by_cases h1 : p = 2
  · subst h1; simp [toyOutcomeFn] at h2
  · by_cases h4 : p = 4
    · subst h4; simp [toyOutcomeFn, h1] at h2
    · by_cases h5 : p = 5
      · subst h5; simp [toyToMoveFn]
      · simp [toyOutcomeFn, h1, h4, h5] at h2

/-- A stalemated toy position admits no convertible move. -/
theorem toyStaleLaw : ∀ p : Nat, toyRules.isStalemate p = true →
    ∀ s : String, toyRules.toMove s p = none := by
  intro p hp s
  have h2 : false = true := hp
  exact absurd h2 (by decide)

/-- Claim C7: a successful move stores the submitted SAN with the canonical
suffix recomputed on the position after the move, checkmate before check
before nothing; and because parsing discards a submitted suffix character, a
SAN carrying any (possibly wrong) suffix plays exactly like the bare SAN. -/
theorem canonical_suffix_recompute {Pos San Mv : Type} (R : Rules Pos San Mv)
    (keccak : List Nat → List Nat) :
    (∀ (g : Game Pos) (s : San) (mv : Move San) (g2 : Game Pos),
      g.playNextMove R keccak s = (.ok mv, g2) →
      mv.san.san = s ∧
      mv.san.suffix =
        (if R.isCheckmate g2.position then some .checkmate
         else if R.isCheck g2.position then some .check else none))
    ∧ (∀ (hlaw : ∀ (b : String) (c : Suffix), noTrailingSuffix b →
          R.parseSan (b ++ suffixStr c) = R.parseSan b)
        (g : Game Pos) (player expected : List Nat) (b : String) (c : Suffix),
        noTrailingSuffix b →
        playSanStr R keccak g player expected (b ++ suffixStr c)
          = playSanStr R keccak g player expected b) := by
  constructor
  · intro g s mv g2 h
    obtain ⟨m, p2, h1, h2, hmv, hg⟩ := playNextMove_ok_cases R keccak g s mv g2 h
    subst hmv; subst hg
    exact ⟨rfl, rfl⟩
  · intro hlaw g player expected b c hb
    unfold playSanStr
    rw [hlaw b c hb]

/-- Witness for C7: playing m1 with a wrong checkmate suffix behaves exactly
like the bare m1, and the stored record carries the recomputed suffix. -/
theorem canonical_suffix_recompute_witness :
    (toyMv1.san.san = "m1" ∧
      toyMv1.san.suffix =
        (if toyRules.isCheckmate toyG1.position then some Suffix.checkmate
         else if toyRules.isCheck toyG1.position then some Suffix.check else none))
    ∧ playSanStr toyRules toyKeccak toyG0 [1] toyG0.hash ("m1" ++ suffixStr .checkmate)
        = playSanStr toyRules toyKeccak toyG0 [1] toyG0.hash "m1" :=
  ⟨(canonical_suffix_recompute toyRules toyKeccak).1 toyG0 "m1" toyMv1 toyG1 (by decide),
   (canonical_suffix_recompute toyRules toyKeccak).2 toyParseLaw toyG0 [1] toyG0.hash
     "m1" .checkmate (by decide)⟩

/-- Claim C10: under the rules-library guarantee that SAN conversion only
returns playable moves, every failing play or play_next_move leaves the game
record unchanged (position, half_move and hash included); when conversion
succeeds the subsequent play cannot fail, so the branch in which the taken
position would remain reset to the start is unreachable. -/
theorem error_leaves_game_unchanged {Pos San Mv : Type} (R : Rules Pos San Mv)
    (keccak : List Nat → List Nat)
    (hlegal : ∀ (s : San) (p : Pos) (m : Mv),
      R.toMove s p = some m → (R.playMove p m).isSome = true)
    (g : Game Pos) (san : San) :
    (∀ (e : PlayError) (g2 : Game Pos),
      g.playNextMove R keccak san = (.error e, g2) → g2 = g)
    ∧ (∀ m : Mv, R.toMove san g.position = some m →
      exceptOk (g.playNextMove R keccak san).1 = true)
    ∧ (∀ (player expected : List Nat) (e : PlayError) (g2 : Game Pos),
      g.play R keccak player expected san = (.error e, g2) → g2 = g) := by
  have hplay : ∀ (m : Mv), R.toMove san g.position = some m →
      ∃ p2, R.playMove g.position m = some p2 := by
    intro m h1
    have h2 := hlegal san g.position m h1
    rcases h3 : R.playMove g.position m with _ | p2
    · rw [h3] at h2; cases h2
    · exact ⟨p2, rfl⟩
  have key : ∀ (e : PlayError) (g2 : Game Pos),
      g.playNextMove R keccak san = (.error e, g2) → g2 = g := by
    intro e g2 h
    rcases h1 : R.toMove san g.position with _ | m
    · simp [Game.playNextMove, h1] at h
      exact h.2.symm
    · obtain ⟨p2, h3⟩ := hplay m h1
      simp [Game.playNextMove, h1, h3] at h
  refine ⟨key, ?_, ?_⟩
  · intro m h1
    obtain ⟨p2, h3⟩ := hplay m h1
    simp [Game.playNextMove, h1, h3, exceptOk]
  · intro player expected e g2 h
    rcases hpc : g.playerColor player with _ | c
    · simp [Game.play, hpc] at h
      exact h.2.symm
    · simp only [Game.play, hpc] at h
      by_cases ht : R.turn g.position = c
      · rw [if_pos ht] at h
        by_cases he : expected = g.hash
        · rw [if_pos he] at h
          exact key e g2 h
        · rw [if_neg he] at h
          injection h with h1 h2
          exact h2.symm
      · rw [if_neg ht] at h
        injection h with h1 h2
        exact h2.symm

/-- Witness for C10: a failing conversion leaves the concrete game unchanged
and a converting SAN plays successfully. -/
theorem error_leaves_game_unchanged_witness :
    (toyG0.playNextMove toyRules toyKeccak "zz").2 = toyG0
    ∧ exceptOk ((toyG0.playNextMove toyRules toyKeccak "m1").1) = true :=
  ⟨(error_leaves_game_unchanged toyRules toyKeccak toyLegal toyG0 "zz").1
      .illegalSan (toyG0.playNextMove toyRules toyKeccak "zz").2 (by decide),
   (error_leaves_game_unchanged toyRules toyKeccak toyLegal toyG0 "m1").2.1 10 (by decide)⟩

/-- Counterexample to claim C9 as stated: this game has outcome Some (a draw
by insufficient material, as K plus N versus K in chess, where legal moves
remain) and yet play succeeds. -/
theorem play_succeeds_despite_finished_outcome :
    Game.outcome toyRules toyG1 = some Outcome.insufficientMaterial
    ∧ exceptOk ((toyG1.play toyRules toyKeccak [2] toyG1.hash "m3").1) = true :=
  ⟨by decide, by decide⟩

/-- Claim C9 (amended): when outcome is Some because the position is
checkmate or stalemate, positions with no legal moves, every play call
returns an error; an insufficient-material outcome does not block play. -/
theorem play_fails_after_checkmate_or_stalemate {Pos San Mv : Type}
    (R : Rules Pos San Mv) (keccak : List Nat → List Nat)
    (hmate : ∀ (p : Pos) (w : Color), R.outcome p = some (.decisive w) →
      ∀ s : San, R.toMove s p = none)
    (hstale : ∀ p : Pos, R.isStalemate p = true → ∀ s : San, R.toMove s p = none)
    (g : Game Pos) (o : Outcome) (ho : Game.outcome R g = some o)
    (hterm : o = .stalemate ∨ ∃ w l, o = .checkmate w l) :
    ∀ (player expected : List Nat) (san : San),
      exceptOk (g.play R keccak player expected san).1 = false := by
  intro player expected san
  have hnm : R.toMove san g.position = none := by
    rcases hoc : R.outcome g.position with _ | ro
    · simp [Game.outcome, hoc] at ho
    · rcases ro with w | _
      · exact hmate g.position w hoc san
      · simp only [Game.outcome, hoc] at ho
        by_cases hs : R.isStalemate g.position = true
        · exact hstale g.position hs san
        · rw [if_neg hs] at ho
          exfalso
          by_cases hi : R.isInsufficientMaterial g.position = true
          · rw [if_pos hi] at ho
            injection ho with ho2
            rcases hterm with h | ⟨w, l, h⟩ <;> rw [h] at ho2 <;> cases ho2
          · rw [if_neg hi] at ho
            injection ho with ho2
            rcases hterm with h | ⟨w, l, h⟩ <;> rw [h] at ho2 <;> cases ho2
  rcases hpc : g.playerColor player with _ | c
  · simp [Game.play, hpc, exceptOk]
  · simp only [Game.play, hpc]
    by_cases ht : R.turn g.position = c
    · rw [if_pos ht]
      by_cases he : expected = g.hash
      · rw [if_pos he]
        simp [Game.playNextMove, hnm, exceptOk]
      · rw [if_neg he]
        simp [exceptOk]
    · rw [if_neg ht]
      simp [exceptOk]

/-- Witness for the amended C9 at the toy checkmate position. -/
theorem play_fails_after_checkmate_or_stalemate_witness :
    exceptOk ((toyGMate.play toyRules toyKeccak [1] toyGMate.hash "m1").1) = false :=
  play_fails_after_checkmate_or_stalemate toyRules toyKeccak toyMateLaw toyStaleLaw
    toyGMate (.checkmate [1] [2]) (by decide) (.inr ⟨[1], [2], rfl⟩)
    [1] toyGMate.hash "m1"

/-- Claim C3 evaluation at a failing input: the challenge input errors (so the
input is rejected), yet the game row inserted by new_game persists in the
store returned to the loop and is visible to later inputs. -/
theorem challenge_failed_first_move_row_persists :
    (handleChallenge toyRules toyKeccak 0
        { users := [], games := [], moves := [], nextId := 1 } [1] [2] (some "zz")).1
      = .error .illegalSan
    ∧ (handleChallenge toyRules toyKeccak 0
        { users := [], games := [], moves := [], nextId := 1 } [1] [2] (some "zz")).2.games
      = [(1, [1], [2])]
    ∧ (handleChallenge toyRules toyKeccak 0
        { users := [], games := [], moves := [], nextId := 1 } [1] [2] (some "zz")).2.moves
      = [] :=
  ⟨by decide, by decide, by decide⟩

/-- String append is associative. -/
theorem strAppendAssoc (a b c : String) : a ++ b ++ c = a ++ (b ++ c) := by
  rcases a with ⟨xa⟩
  rcases b with ⟨xb⟩
  rcases c with ⟨xc⟩
  exact congrArg String.mk (List.append_assoc xa xb xc)

/-- Appending the empty string on the right. -/
theorem strAppendNil (a : String) : a ++ "" = a := by
  rcases a with ⟨xa⟩
  exact congrArg String.mk (List.append_nil xa)

/-- Appending the empty string on the left. -/
theorem strNilAppend (a : String) : "" ++ a = a := by
  rcases a with ⟨xa⟩
  rfl

/-- The source loop equals the spec formatter, relative to any accumulator. -/
theorem notationLoop_spec : ∀ (l : List String) (i : Nat) (acc : String),
    notationLoop i l acc = acc ++ specFormat i l
  | [], _, acc => by
    simp [notationLoop, specFormat, strAppendNil]
  | [w], i, acc => by
    simp only [notationLoop, specFormat]
    simp [strAppendAssoc]
  | w :: b :: rest, i, acc => by
    have ih := notationLoop_spec rest (i + 1)
      (acc ++ toString i ++ "." ++ w ++ " " ++ b ++ " ")
    simp only [notationLoop, specFormat]
    rw [ih]
    simp [strAppendAssoc]

/-- Claim C8: game_notation reads the moves in ascending half-move order and
formats them pairing each white half move with its full-move number, a
trailing space after every half move, ending mid-pair on an odd ply count; on
the stored scholars mate it yields the exact expected text. -/
theorem moves_text_pairing {Rating : Type} :
    (∀ (db : DbState Rating) (id : Int),
      gameMovesText db id
        = specFormat 1 ((sortByHalfMove (db.moves.filter (fun row => row.1 == id))).map
            (fun row => row.2.2)))
    ∧ gameMovesText scholarsDb 5 = "1.e4 e5 2.Qh5 Nc6 3.Bc4 Nf6 4.Qxf7# " := by
  constructor
  · intro db id
    unfold gameMovesText
    rw [notationLoop_spec]
    exact strNilAppend _
  · decide

/-- Claim C4: end_game on a draw outcome computes both new ratings from the
other player's pre-update rating, bumps white_draws for the white player and
black_draws for the black player, leaves every other user and every other
counter untouched, and deletes the game row, as one atomic step. -/
theorem end_game_draw_pre_update_symmetry {Pos Rating : Type}
    (upd : Rating → GResult Rating → Rating) (db : DbState Rating) (g : Game Pos)
    (oc : Outcome) (we be : Rating)
    (hdr : oc.winnerLoser = none)
    (hw : getElo db g.white = some we) (hb : getElo db g.black = some be)
    (hne : g.white ≠ g.black) :
    dbEndGame upd db g (some oc) = some
      { users := db.users.map (fun u =>
          if u.address = g.white then
            { u with rating := upd we (.draw be), white_draws := u.white_draws + 1 }
          else if u.address = g.black then
            { u with rating := upd be (.draw we), black_draws := u.black_draws + 1 }
          else u),
        games := db.games.filter (fun row => row.1 != g.id),
        moves := db.moves,
        nextId := db.nextId } := by
  simp only [dbEndGame, hdr, hw, hb, setElo, bump, List.map_map]
  congr 1
  congr 1
  apply List.map_congr_left
  intro u hu
  by_cases h1 : u.address = g.white
  · simp [Function.comp, h1, hne, bumpRow]
  · by_cases h2 : u.address = g.black
    · simp [Function.comp, h1, h2, Ne.symm hne, bumpRow]
    · simp [Function.comp, h1, h2]

/-- Witness for C4 at a concrete store with two rated users. -/
theorem end_game_draw_pre_update_symmetry_witness :
    dbEndGame toyUpd toyStatsDb toyStatsGame (some .stalemate) = some
      { users := toyStatsDb.users.map (fun u =>
          if u.address = toyStatsGame.white then
            { u with rating := toyUpd 7 (.draw 8), white_draws := u.white_draws + 1 }
          else if u.address = toyStatsGame.black then
            { u with rating := toyUpd 8 (.draw 7), black_draws := u.black_draws + 1 }
          else u),
        games := toyStatsDb.games.filter (fun row => row.1 != toyStatsGame.id),
        moves := toyStatsDb.moves,
        nextId := toyStatsDb.nextId } :=
  end_game_draw_pre_update_symmetry toyUpd toyStatsDb toyStatsGame .stalemate 7 8
    (by decide) (by decide) (by decide) (by decide)

/-- Claim C5: end_game on a decisive outcome increments exactly the winner's
counter for the color the winner played and the loser's losses counter for
the opposite color, updates both ratings from pre-update values, leaves every
other counter of every user unchanged, and deletes the game row. -/
theorem end_game_decisive_counter_frame {Pos Rating : Type}
    (upd : Rating → GResult Rating → Rating) (db : DbState Rating) (g : Game Pos)
    (oc : Outcome) (winner loser : List Nat) (ew el : Rating)
    (hwl : oc.winnerLoser = some (winner, loser))
    (hw : getElo db winner = some ew) (hl : getElo db loser = some el)
    (hne : winner ≠ loser) :
    (winner = g.white →
      dbEndGame upd db g (some oc) = some
        { users := db.users.map (fun u =>
            if u.address = winner then
              { u with rating := upd ew (.win el), white_wins := u.white_wins + 1 }
            else if u.address = loser then
              { u with rating := upd el (.loss ew), black_losses := u.black_losses + 1 }
            else u),
          games := db.games.filter (fun row => row.1 != g.id),
          moves := db.moves,
          nextId := db.nextId })
    ∧ (winner ≠ g.white →
      dbEndGame upd db g (some oc) = some
        { users := db.users.map (fun u =>
            if u.address = winner then
              { u with rating := upd ew (.win el), black_wins := u.black_wins + 1 }
            else if u.address = loser then
              { u with rating := upd el (.loss ew), white_losses := u.white_losses + 1 }
            else u),
          games := db.games.filter (fun row => row.1 != g.id),
          moves := db.moves,
          nextId := db.nextId }) := by
  constructor
  · intro hww
    simp only [dbEndGame, hwl, hw, hl, if_pos hww, setElo, bump, List.map_map]
    congr 1
    congr 1
    apply List.map_congr_left
    intro u hu
    by_cases h1 : u.address = winner
    · simp [Function.comp, h1, hne, bumpRow]
    · by_cases h2 : u.address = loser
      · simp [Function.comp, h1, h2, Ne.symm hne, bumpRow]
      · simp [Function.comp, h1, h2]
  · intro hww
    simp only [dbEndGame, hwl, hw, hl, if_neg hww, setElo, bump, List.map_map]
    congr 1
    congr 1
    apply List.map_congr_left
    intro u hu
    by_cases h1 : u.address = winner
    · simp [Function.comp, h1, hne, bumpRow]
    · by_cases h2 : u.address = loser
      · simp [Function.comp, h1, h2, Ne.symm hne, bumpRow]
      · simp [Function.comp, h1, h2]

/-- Witness for C5: a checkmate win by the white player at a concrete store. -/
theorem end_game_decisive_counter_frame_witness :
    dbEndGame toyUpd toyStatsDb toyStatsGame (some (.checkmate [1] [2])) = some
      { users := toyStatsDb.users.map (fun u =>
          if u.address = [1] then
            { u with rating := toyUpd 7 (.win 8), white_wins := u.white_wins + 1 }
          else if u.address = [2] then
            { u with rating := toyUpd 8 (.loss 7), black_losses := u.black_losses + 1 }
          else u),
        games := toyStatsDb.games.filter (fun row => row.1 != toyStatsGame.id),
        moves := toyStatsDb.moves,
        nextId := toyStatsDb.nextId } :=
  (end_game_decisive_counter_frame toyUpd toyStatsDb toyStatsGame (.checkmate [1] [2])
    [1] [2] 7 8 (by decide) (by decide) (by decide) (by decide)).1 (by decide)

end Chesspresso
